import Mathlib

/-!
Shallow embedding of the UDP round-trip latency measurement tool
(`udp_echo_client.py`, the Prober, and `udp_echo_server.py`, the Responder).

Bytes are modelled as `Nat` values below 256, byte strings as `List Nat`.
Wall-clock readings and round-trip times are modelled as exact rationals
(`ℚ`); the 8-byte IEEE-754 big-endian serialization of the send timestamp
produced by `struct.pack('!Id', ...)` is abstracted as an arbitrary 8-byte
block supplied by the environment, since no claim depends on the bit
pattern of the double.
-/

namespace UdpEcho

/-- `struct.pack('!I', n)`: the 4-byte big-endian encoding of an unsigned
32-bit integer. -/
def pack_u32_be (n : Nat) : List Nat :=
  [n / 2 ^ 24 % 256, n / 2 ^ 16 % 256, n / 2 ^ 8 % 256, n % 256]

/-- The payload built at the top of `UDPEchoClient.send_packet`
(udp_echo_client.py lines 139-142):
`payload = struct.pack('!Id', sequence, timestamp)` followed by
`payload += b'x' * (self.packet_size - len(payload))`.
`struct.pack('!Id', ...)` always yields 12 bytes (4-byte big-endian unsigned
sequence, then the 8-byte big-endian double, abstracted here as `tsBytes`);
Python's `bytes * k` with `k < 0` yields the empty byte string, which
`Int.toNat` reproduces.  `120` is the byte `b'x'`. -/
def build_payload (packet_size : Int) (sequence : Nat) (tsBytes : List Nat) : List Nat :=
  pack_u32_be sequence ++ tsBytes ++ List.replicate (packet_size - 12).toNat 120

/-- `struct.unpack('!Id', b)` (udp_echo_client.py line 160, applied to
`data[:12]`): succeeds exactly when the buffer holds 12 bytes, returning the
decoded sequence number and the 8 timestamp bytes; otherwise it raises
`struct.error`, modelled as the `.error` case. -/
def unpack_header (b : List Nat) : Except String (Nat × List Nat) :=
  if b.length = 12 then
    .ok ((b.take 4).foldl (fun a d => a * 256 + d) 0, b.drop 4)
  else
    .error "unpack requires a buffer of 12 bytes"

/-- One CSV row written by `UDPEchoClient._log_row`: the fields a claim can
observe (sequence, status string, measured rtt, response size, error text). -/
structure LogRow where
  sequence : Nat
  status : String
  rtt : Option ℚ
  respSize : Option Nat
  error : Option String
  deriving Repr, DecidableEq

/-- The mutable state of a `UDPEchoClient` instance: configured packet size
and the run counters set up in `__init__` (udp_echo_client.py lines 24-38),
plus the rows written to the CSV log so far. -/
structure ClientState where
  packet_size : Int
  sent_count : Nat
  received_count : Nat
  rtts : List ℚ
  log : List LogRow
  deriving Repr, DecidableEq

/-- The fresh state built by `UDPEchoClient.__init__`. -/
def initState (packet_size : Int) : ClientState :=
  { packet_size := packet_size, sent_count := 0, received_count := 0,
    rtts := [], log := [] }

/-- What the network does to one probe, as observed by `send_packet`:
either `sock.sendto` raises (`sendFail`), or the send succeeds and
`sock.recvfrom` raises `socket.timeout` (`timeout`), raises some other
exception (`recvFail`), or returns a datagram together with the measured
round-trip time in microseconds (`reply`). -/
inductive NetEvent where
  | sendFail (msg : String)
  | timeout
  | recvFail (msg : String)
  | reply (data : List Nat) (rtt : ℚ)
  deriving Repr, DecidableEq

/-- Whether `sock.sendto` succeeded for this event (it raises only in the
`sendFail` case). -/
def NetEvent.sendSucceeds : NetEvent → Bool
  | .sendFail _ => false
  | _ => true

/-- `UDPEchoClient.send_packet` (udp_echo_client.py lines 136-185) as a state
transformer.  The payload is built first; then, inside the `try` block:
`sendto` (raising means the generic `except Exception` logs an `error` row
with `sent_count` untouched); on success `sent_count` is incremented; then
`recvfrom` — a `socket.timeout` logs a `timeout` row, another exception logs
an `error` row; on a received datagram `received_count` is incremented and
the rtt appended to `self.rtts` BEFORE `struct.unpack('!Id', data[:12])`
runs, so a short reply still reaches `rtts`/`received_count` and is then
logged as an `error` row by the generic handler.  Returns the new state and
the value `send_packet` returns (`rtt_us` or `None`). -/
def send_packet (st : ClientState) (sequence : Nat) (tsBytes : List Nat)
    (ev : NetEvent) : ClientState × Option ℚ :=
  let _payload := build_payload st.packet_size sequence tsBytes
  match ev with
  | .sendFail msg =>
      ({ st with log := st.log ++ [⟨sequence, "error", none, none, some msg⟩] }, none)
  | .timeout =>
      ({ st with sent_count := st.sent_count + 1,
                 log := st.log ++ [⟨sequence, "timeout", none, none, some "timeout"⟩] },
       none)
  | .recvFail msg =>
      ({ st with sent_count := st.sent_count + 1,
                 log := st.log ++ [⟨sequence, "error", none, none, some msg⟩] },
       none)
  | .reply data rtt =>
      let st1 : ClientState :=
        { st with sent_count := st.sent_count + 1,
                  received_count := st.received_count + 1,
                  rtts := st.rtts ++ [rtt] }
      match unpack_header (data.take 12) with
      | .ok _ =>
          ({ st1 with
              log := st1.log ++ [⟨sequence, "ok", some rtt, some data.length, none⟩] },
           some rtt)
      | .error e =>
          ({ st1 with log := st1.log ++ [⟨sequence, "error", none, none, some e⟩] },
           none)

/-- Run `send_packet` once per sequence number in `seqs`, threading the
client state; `env` says what the network does for each sequence number and
`ts` supplies the 8 serialized timestamp bytes. -/
def foldSeqs (env : Nat → NetEvent) (ts : Nat → List Nat) (seqs : List Nat)
    (st : ClientState) : ClientState :=
  seqs.foldl (fun s seq => (send_packet s seq (ts seq) (env seq)).1) st

/-- The probe loop of `UDPEchoClient.run` (udp_echo_client.py lines 200-206):
`for seq in range(1, count + 1): self.send_packet(seq)` (the inter-probe
sleep does not touch the state). -/
def runLoop (env : Nat → NetEvent) (ts : Nat → List Nat) (count : Nat)
    (st : ClientState) : ClientState :=
  foldSeqs env ts (List.range' 1 count) st

/-- Result of the Prober's CLI entry point `main`
(udp_echo_client.py lines 250-279), after argument parsing. -/
inductive MainResult where
  | configError (exitCode : Nat)
  | run (size : Int) (count : Nat) (interval : ℚ)
  deriving Repr, DecidableEq

/-- `main` of udp_echo_client.py (lines 265-279): validates the packet size
first — `if args.size < 12: sys.exit(1)` — and only past that check
constructs `UDPEchoClient` (which opens the socket) and calls `run`, here
represented by the `.run` result. -/
def clientMain (size : Int) (count : Nat) (interval : ℚ) : MainResult :=
  if size < 12 then .configError 1 else .run size count interval

/-! ## Statistics (print_statistics / _log_statistics) -/

/-- `int(len(sorted_rtts) * fraction)`: the percentile index used at
udp_echo_client.py lines 240-242 and 99-101, computed here in exact
arithmetic as `⌊n·k/100⌋` (`k` is the percentile, e.g. 50, 95, 99). -/
def percentileIndex (n k : Nat) : Nat :=
  n * k / 100

/-- `sorted(self.rtts)`: the RTT samples in ascending order (Python's
`sorted` is a stable ascending sort). -/
def sortedRtts (l : List ℚ) : List ℚ :=
  l.insertionSort (· ≤ ·)

/-- Python `min` over a non-empty list (0 for the empty list, which the
code never queries: the statistics block is guarded by `if self.rtts:`). -/
def listMin : List ℚ → ℚ
  | [] => 0
  | x :: xs => xs.foldl min x

/-- Python `max` over a non-empty list (same guard as `listMin`). -/
def listMax : List ℚ → ℚ
  | [] => 0
  | x :: xs => xs.foldl max x

/-- `statistics.mean`. -/
def listMean (l : List ℚ) : ℚ :=
  l.sum / l.length

/-- `statistics.median`: middle element of the sorted samples for odd
count, average of the two middle elements for even count. -/
def listMedian (l : List ℚ) : ℚ :=
  let s := sortedRtts l
  let n := s.length
  if n % 2 = 1 then s.getD (n / 2) 0
  else (s.getD (n / 2 - 1) 0 + s.getD (n / 2) 0) / 2

/-- The square of `statistics.stdev`: the sample variance
`Σ (x − mean)² / (n − 1)`.  The reported standard deviation is its square
root, which has no exact rational representative; every claim about it
concerns only whether it is reported, so the model carries the variance. -/
def sampleVariance (l : List ℚ) : ℚ :=
  let m := listMean l
  (l.map fun x => (x - m) ^ 2).sum / ((l.length : ℚ) - 1)

/-- The RTT block of the statistics summary (printed only when
`self.rtts` is non-empty): min/max/mean/median, the optional standard
deviation (present exactly when `len(self.rtts) > 1`, carried as its
square), and the three percentiles read from the sorted samples. -/
structure RttStats where
  minV : ℚ
  maxV : ℚ
  meanV : ℚ
  medianV : ℚ
  stddevSq : Option ℚ
  p50 : ℚ
  p95 : ℚ
  p99 : ℚ
  deriving Repr, DecidableEq

/-- The RTT block computed by both `print_statistics`
(udp_echo_client.py lines 228-246) and `_log_statistics` (lines 87-106). -/
def computeRttStats (rtts : List ℚ) : RttStats :=
  let s := sortedRtts rtts
  { minV := listMin rtts
    maxV := listMax rtts
    meanV := listMean rtts
    medianV := listMedian rtts
    stddevSq := if 1 < rtts.length then some (sampleVariance rtts) else none
    p50 := s.getD (percentileIndex s.length 50) 0
    p95 := s.getD (percentileIndex s.length 95) 0
    p99 := s.getD (percentileIndex s.length 99) 0 }

/-- The whole statistics summary: counters, loss rate (printed only when
`sent_count > 0`), and the RTT block (printed only when samples exist). -/
structure RunStats where
  sent : Nat
  received : Nat
  loss_rate_percent : Option ℚ
  rtt : Option RttStats
  deriving Repr, DecidableEq

/-- The summary a `ClientState` yields: shared shape of `print_statistics`
and `_log_statistics`, which duplicate the same computation. -/
def computeRunStats (st : ClientState) : RunStats :=
  { sent := st.sent_count
    received := st.received_count
    loss_rate_percent :=
      if 0 < st.sent_count then
        some (((st.sent_count : ℚ) - st.received_count) / st.sent_count * 100)
      else none
    rtt := if st.rtts.isEmpty then none else some (computeRttStats st.rtts) }

/-- `UDPEchoClient.print_statistics` (udp_echo_client.py lines 216-248):
the console summary. -/
def print_statistics (st : ClientState) : RunStats :=
  computeRunStats st

/-- `UDPEchoClient._log_statistics` (udp_echo_client.py lines 66-111): the
summary written to the CSV log stream; line for line the same computation
as `print_statistics`. -/
def log_statistics (st : ClientState) : RunStats :=
  computeRunStats st

/-! ## Teardown order of `UDPEchoClient.run` -/

/-- Externally visible events of one `run` invocation: per-probe log rows
followed by the teardown steps of the `finally` block. -/
inductive TraceEv where
  | row (sequence : Nat) (status : String)
  | statsConsole
  | socketClose
  | statsLog
  | logClose
  deriving Repr, DecidableEq

/-- The `finally` block of `UDPEchoClient.run`
(udp_echo_client.py lines 210-214), in source order:
`self.print_statistics()`, `self.sock.close()`, `self._log_statistics()`,
`self._close_log()`. -/
def teardownTrace : List TraceEv :=
  [.statsConsole, .socketClose, .statsLog, .logClose]

/-- The sequence numbers the probe loop processes: all of `1..count`, or —
when a `KeyboardInterrupt` is observed cooperatively between iterations,
before sequence `c` is sent — only those below `c`. -/
def bodySeqs (count : Nat) (cancel : Option Nat) : List Nat :=
  match cancel with
  | none => List.range' 1 count
  | some c => (List.range' 1 count).filter (· < c)

/-- The event trace of one `UDPEchoClient.run` call (udp_echo_client.py
lines 187-214): one log row per processed probe (cut short on user
cancellation), then — on every exit path, via `try`/`except
KeyboardInterrupt`/`finally` — the teardown steps of `teardownTrace`. -/
def runTrace (size : Int) (env : Nat → NetEvent) (ts : Nat → List Nat)
    (count : Nat) (cancel : Option Nat) : List TraceEv :=
  let st := foldSeqs env ts (bodySeqs count cancel) (initState size)
  (st.log.map fun r => .row r.sequence r.status) ++ teardownTrace

/-! ## Echo Responder (udp_echo_server.py) -/

/-- A UDP endpoint as seen by `recvfrom`/`sendto`. -/
structure Addr where
  ip : String
  port : Nat
  deriving Repr, DecidableEq

/-- One CSV row written by the Responder per received packet. -/
structure ServerRow where
  packet : Nat
  size : Nat
  from_addr : Addr
  deriving Repr, DecidableEq

/-- The Responder's loop state: the packet counter and the log rows. -/
structure ServerState where
  packet_count : Nat
  log : List ServerRow
  deriving Repr, DecidableEq

/-- One iteration of the Responder's receive/echo loop
(udp_echo_server.py lines 62-93): receive `data` from `clientAddr`,
increment the counter, `sock.sendto(data, client_addr)` — the very bytes
received, with no inspection of their content — and append a log row.
Returns the new state and the (destination, bytes) of the transmitted
datagram; the function is total: no payload shape or size can make it
fail. -/
def serverStep (st : ServerState) (data : List Nat) (clientAddr : Addr) :
    ServerState × Addr × List Nat :=
  let count := st.packet_count + 1
  ({ packet_count := count,
     log := st.log ++ [⟨count, data.length, clientAddr⟩] },
   clientAddr, data)

/-! ## Helper lemmas about the statistics computations -/

lemma getD_eq_get (l : List ℚ) (i : Nat) (h : i < l.length) (d : ℚ) :
    l.getD i d = l.get ⟨i, h⟩ := by
  simp [List.getD_eq_getElem?_getD, List.getElem?_eq_getElem h, List.get_eq_getElem]

lemma foldl_min_le_init (xs : List ℚ) (a : ℚ) : xs.foldl min a ≤ a := by
  induction xs generalizing a with
  | nil => simp
  | cons x xs ih =>
      simpa using le_trans (ih (min a x)) (min_le_left a x)

lemma foldl_min_le_mem (xs : List ℚ) (a x : ℚ) (hx : x ∈ xs) :
    xs.foldl min a ≤ x := by
  induction xs generalizing a with
  | nil => cases hx
  | cons y ys ih =>
      rcases List.mem_cons.mp hx with hxy | hxs
      · subst hxy
        simpa using le_trans (foldl_min_le_init ys (min a x)) (min_le_right a x)
      · simpa using ih (min a y) hxs

lemma init_le_foldl_max (xs : List ℚ) (a : ℚ) : a ≤ xs.foldl max a := by
  induction xs generalizing a with
  | nil => simp
  | cons x xs ih =>
      simpa using le_trans (le_max_left a x) (ih (max a x))

lemma mem_le_foldl_max (xs : List ℚ) (a x : ℚ) (hx : x ∈ xs) :
    x ≤ xs.foldl max a := by
  induction xs generalizing a with
  | nil => cases hx
  | cons y ys ih =>
      rcases List.mem_cons.mp hx with hxy | hxs
      · subst hxy
        simpa using le_trans (le_max_right a x) (init_le_foldl_max ys (max a x))
      · simpa using ih (max a y) hxs

lemma listMin_le_mem (l : List ℚ) (x : ℚ) (hx : x ∈ l) : listMin l ≤ x := by
  cases l with
  | nil => cases hx
  | cons y ys =>
      rcases List.mem_cons.mp hx with hxy | hxs
      · subst hxy
        exact foldl_min_le_init ys x
      · exact foldl_min_le_mem ys y x hxs

lemma mem_le_listMax (l : List ℚ) (x : ℚ) (hx : x ∈ l) : x ≤ listMax l := by
  cases l with
  | nil => cases hx
  | cons y ys =>
      rcases List.mem_cons.mp hx with hxy | hxs
      · subst hxy
        exact init_le_foldl_max ys x
      · exact mem_le_foldl_max ys y x hxs

lemma listMin_le_listMean (l : List ℚ) (h : l ≠ []) : listMin l ≤ listMean l := by
  have hn : 0 < (l.length : ℚ) := by
    exact_mod_cast List.length_pos.mpr h
  rw [listMean, le_div_iff₀ hn]
  have hb : l.length • listMin l ≤ l.sum :=
    List.card_nsmul_le_sum l (listMin l) fun x hx => listMin_le_mem l x hx
  calc listMin l * (l.length : ℚ) = l.length • listMin l := by
        rw [nsmul_eq_mul]; ring
    _ ≤ l.sum := hb

lemma listMean_le_listMax (l : List ℚ) (h : l ≠ []) : listMean l ≤ listMax l := by
  have hn : 0 < (l.length : ℚ) := by
    exact_mod_cast List.length_pos.mpr h
  rw [listMean, div_le_iff₀ hn]
  have hb : l.sum ≤ l.length • listMax l :=
    List.sum_le_card_nsmul l (listMax l) fun x hx => mem_le_listMax l x hx
  calc l.sum ≤ l.length • listMax l := hb
    _ = listMax l * (l.length : ℚ) := by rw [nsmul_eq_mul]; ring

lemma sorted_getD_mono (l : List ℚ) (hs : List.Sorted (· ≤ ·) l) (i j : Nat)
    (hij : i ≤ j) (hj : j < l.length) : l.getD i 0 ≤ l.getD j 0 := by
  have hi : i < l.length := lt_of_le_of_lt hij hj
  rw [getD_eq_get l i hi 0, getD_eq_get l j hj 0]
  exact hs.rel_get_of_le (by exact Fin.mk_le_mk.mpr hij)

lemma sortedRtts_sorted (l : List ℚ) : List.Sorted (· ≤ ·) (sortedRtts l) :=
  List.sorted_insertionSort _ l

lemma sortedRtts_perm (l : List ℚ) : (sortedRtts l).Perm l :=
  List.perm_insertionSort _ l

lemma sortedRtts_length (l : List ℚ) : (sortedRtts l).length = l.length :=
  List.length_insertionSort _ l

/-! ## Helper lemmas about the probe loop -/

lemma send_packet_step (st : ClientState) (seq : Nat) (ts : List Nat)
    (ev : NetEvent) :
    ∃ r : LogRow, (send_packet st seq ts ev).1.log = st.log ++ [r] ∧
      r.sequence = seq ∧
      (r.status = "ok" ∨ r.status = "timeout" ∨ r.status = "error") ∧
      (send_packet st seq ts ev).1.sent_count
        = st.sent_count + (if ev.sendSucceeds then 1 else 0) := by
  cases ev with
  | sendFail msg =>
      exact ⟨_, rfl, rfl, Or.inr (Or.inr rfl),
        by simp [send_packet, NetEvent.sendSucceeds]⟩
  | timeout =>
      exact ⟨_, rfl, rfl, Or.inr (Or.inl rfl),
        by simp [send_packet, NetEvent.sendSucceeds]⟩
  | recvFail msg =>
      exact ⟨_, rfl, rfl, Or.inr (Or.inr rfl),
        by simp [send_packet, NetEvent.sendSucceeds]⟩
  | reply data rtt =>
      cases hu : unpack_header (data.take 12) with
      | ok v =>
          refine ⟨⟨seq, "ok", some rtt, some data.length, none⟩, ?_, rfl,
            Or.inl rfl, ?_⟩ <;>
            simp [send_packet, hu, NetEvent.sendSucceeds]
      | error e =>
          refine ⟨⟨seq, "error", none, none, some e⟩, ?_, rfl,
            Or.inr (Or.inr rfl), ?_⟩ <;>
            simp [send_packet, hu, NetEvent.sendSucceeds]

lemma foldSeqs_log_map (env : Nat → NetEvent) (ts : Nat → List Nat)
    (seqs : List Nat) (st : ClientState) :
    (foldSeqs env ts seqs st).log.map LogRow.sequence
      = st.log.map LogRow.sequence ++ seqs := by
  induction seqs generalizing st with
  | nil => simp [foldSeqs]
  | cons s ss ih =>
      obtain ⟨r, hlog, hseq, -, -⟩ := send_packet_step st s (ts s) (env s)
      have hstep : foldSeqs env ts (s :: ss) st
          = foldSeqs env ts ss ((send_packet st s (ts s) (env s)).1) := rfl
      rw [hstep, ih, hlog]
      simp [hseq]

lemma foldSeqs_status (env : Nat → NetEvent) (ts : Nat → List Nat)
    (seqs : List Nat) (st : ClientState) :
    ∀ r ∈ (foldSeqs env ts seqs st).log,
      r ∈ st.log ∨ r.status = "ok" ∨ r.status = "timeout" ∨ r.status = "error" := by
  induction seqs generalizing st with
  | nil =>
      intro r hr
      exact Or.inl hr
  | cons s ss ih =>
      intro r hr
      obtain ⟨r0, hlog, -, hstat, -⟩ := send_packet_step st s (ts s) (env s)
      have hstep : foldSeqs env ts (s :: ss) st
          = foldSeqs env ts ss ((send_packet st s (ts s) (env s)).1) := rfl
      rw [hstep] at hr
      rcases ih ((send_packet st s (ts s) (env s)).1) r hr with hmem | hok
      · rw [hlog] at hmem
        rcases List.mem_append.mp hmem with h0 | h1
        · exact Or.inl h0
        · have : r = r0 := by simpa using h1
          subst this
          exact Or.inr hstat
      · exact Or.inr hok

lemma foldSeqs_sent (env : Nat → NetEvent) (ts : Nat → List Nat)
    (seqs : List Nat) (st : ClientState) :
    (foldSeqs env ts seqs st).sent_count
      = st.sent_count + seqs.countP (fun s => (env s).sendSucceeds) := by
  induction seqs generalizing st with
  | nil => simp [foldSeqs]
  | cons s ss ih =>
      obtain ⟨r, -, -, -, hsent⟩ := send_packet_step st s (ts s) (env s)
      have hstep : foldSeqs env ts (s :: ss) st
          = foldSeqs env ts ss ((send_packet st s (ts s) (env s)).1) := rfl
      rw [hstep, ih, hsent, List.countP_cons]
      cases hb : (env s).sendSucceeds
      all_goals simp [hb]
      all_goals omega

/-! ## Claim theorems -/

/-- C2: for every datagram the Responder receives, the bytes it transmits
back to the sender's endpoint are exactly the bytes received, for any
payload content and size, and the step is total — no payload shape or size
makes the Responder fail. -/
theorem responder_echoes_exactly (st : ServerState) (data : List Nat) (addr : Addr) :
    (serverStep st data addr).2 = (addr, data) ∧
    (serverStep st data addr).1.packet_count = st.packet_count + 1 ∧
    (serverStep st data addr).1.log
      = st.log ++ [⟨st.packet_count + 1, data.length, addr⟩] :=
  ⟨rfl, rfl, rfl⟩

/-- C3: for every sequence number and every packet_size ≥ 12, the payload is
the 4-byte big-endian sequence, then the 8-byte serialized send timestamp,
then packet_size − 12 filler bytes, so its total length equals packet_size;
packet_size = 12 yields zero filler bytes. -/
theorem payload_layout (size : Int) (h : 12 ≤ size) (seq : Nat) (ts : List Nat)
    (hts : ts.length = 8) :
    build_payload size seq ts
      = pack_u32_be seq ++ ts ++ List.replicate (size - 12).toNat 120 ∧
    ((build_payload size seq ts).length : Int) = size ∧
    (size = 12 → build_payload size seq ts = pack_u32_be seq ++ ts) := by
  refine ⟨rfl, ?_, ?_⟩
  · simp only [build_payload, pack_u32_be, List.length_append, List.length_replicate,
      List.length_cons, List.length_nil, hts]
    omega
  · intro hsz
    subst hsz
    simp [build_payload]

/-- Witness for `payload_layout` at packet_size 12, sequence 1, timestamp
bytes all zero. -/
theorem payload_layout_witness :
    (12 : Int) ≤ 12 ∧ (List.replicate 8 0).length = 8 ∧
    (build_payload 12 1 (List.replicate 8 0)
       = pack_u32_be 1 ++ List.replicate 8 0
           ++ List.replicate ((12 : Int) - 12).toNat 120 ∧
     ((build_payload 12 1 (List.replicate 8 0)).length : Int) = 12 ∧
     ((12 : Int) = 12 →
        build_payload 12 1 (List.replicate 8 0)
          = pack_u32_be 1 ++ List.replicate 8 0)) :=
  ⟨by norm_num, by simp,
   payload_layout 12 (by norm_num) 1 (List.replicate 8 0) (by simp)⟩

/-- C4: the Prober's CLI entry point rejects every packet_size < 12 with
exit status 1 (non-zero) before constructing the client — hence before any
socket is opened — and for packet_size ≥ 12 proceeds to run. -/
theorem main_validates_size (size : Int) (count : Nat) (interval : ℚ) :
    (size < 12 →
       clientMain size count interval = .configError 1 ∧ (1 : Nat) ≠ 0) ∧
    (12 ≤ size → clientMain size count interval = .run size count interval) := by
  constructor
  · intro h
    exact ⟨by simp [clientMain, h], by norm_num⟩
  · intro h
    simp only [clientMain, if_neg (by omega : ¬ size < 12)]

/-- Witness for `main_validates_size` at sizes 11 and 12. -/
theorem main_validates_size_witness :
    clientMain 11 5 1 = .configError 1 ∧ clientMain 12 5 1 = .run 12 5 1 :=
  ⟨((main_validates_size 11 5 1).1 (by norm_num)).1,
   (main_validates_size 12 5 1).2 (by norm_num)⟩

/-- C10: the minimum-size validation lives only in the CLI entry point; the
client class itself, for any packet_size < 12, still builds a payload of
length exactly 12 (the padding count (packet_size − 12).toNat is zero) and
transmits it — a successful echo of that payload even yields a normal `ok`
outcome. -/
theorem send_packet_no_validation (size : Int) (h : size < 12) (seq : Nat)
    (ts : List Nat) (hts : ts.length = 8) (st : ClientState) (rtt : ℚ) :
    (size - 12).toNat = 0 ∧
    (build_payload size seq ts).length = 12 ∧
    ∃ r, (send_packet st seq ts (.reply (build_payload size seq ts) rtt)).1.log
           = st.log ++ [r] ∧ r.status = "ok" := by
  have h0 : (size - 12).toNat = 0 := by omega
  have hb : (build_payload size seq ts).length = 12 := by
    simp [build_payload, pack_u32_be, hts, h0]
  refine ⟨h0, hb, ?_⟩
  have hc : ((build_payload size seq ts).take 12).length = 12 := by
    simp [List.length_take, hb]
  refine ⟨⟨seq, "ok", some rtt, some (build_payload size seq ts).length, none⟩, ?_, rfl⟩
  simp [send_packet, unpack_header, hc]

/-- Witness for `send_packet_no_validation` at packet_size 11. -/
theorem send_packet_no_validation_witness :
    (11 : Int) < 12 ∧ (List.replicate 8 0).length = 8 ∧
    (((11 : Int) - 12).toNat = 0 ∧
     (build_payload 11 1 (List.replicate 8 0)).length = 12 ∧
     ∃ r, (send_packet (initState 11) 1 (List.replicate 8 0)
             (.reply (build_payload 11 1 (List.replicate 8 0)) 5)).1.log
            = (initState 11).log ++ [r] ∧ r.status = "ok") :=
  ⟨by norm_num, by simp,
   send_packet_no_validation 11 (by norm_num) 1 (List.replicate 8 0) (by simp)
     (initState 11) 5⟩

/-- C9: a reply shorter than 12 bytes is classified and logged as an error
outcome, yet received_count has already been incremented and the measured
RTT already appended to the sample set before the unpack failure, so the
reply still counts as received in the final summary. -/
theorem short_reply_counts_received (st : ClientState) (seq : Nat)
    (ts : List Nat) (data : List Nat) (rtt : ℚ) (h : data.length < 12) :
    (send_packet st seq ts (.reply data rtt)).1.sent_count = st.sent_count + 1 ∧
    (send_packet st seq ts (.reply data rtt)).1.received_count
      = st.received_count + 1 ∧
    (send_packet st seq ts (.reply data rtt)).1.rtts = st.rtts ++ [rtt] ∧
    ∃ r, (send_packet st seq ts (.reply data rtt)).1.log = st.log ++ [r] ∧
           r.sequence = seq ∧ r.status = "error" := by
  have hc : ¬ 12 ≤ data.length := by omega
  refine ⟨?_, ?_, ?_, ⟨seq, "error", none, none,
    some "unpack requires a buffer of 12 bytes"⟩, ?_, rfl, rfl⟩ <;>
    simp [send_packet, unpack_header, hc]

/-- Witness for `short_reply_counts_received`: a 3-byte reply. -/
theorem short_reply_counts_received_witness :
    ([0, 1, 2] : List Nat).length < 12 ∧
    ((send_packet (initState 64) 1 (List.replicate 8 0)
        (.reply [0, 1, 2] 5)).1.sent_count = (initState 64).sent_count + 1 ∧
     (send_packet (initState 64) 1 (List.replicate 8 0)
        (.reply [0, 1, 2] 5)).1.received_count
       = (initState 64).received_count + 1 ∧
     (send_packet (initState 64) 1 (List.replicate 8 0)
        (.reply [0, 1, 2] 5)).1.rtts = (initState 64).rtts ++ [5] ∧
     ∃ r, (send_packet (initState 64) 1 (List.replicate 8 0)
             (.reply [0, 1, 2] 5)).1.log = (initState 64).log ++ [r] ∧
            r.sequence = 1 ∧ r.status = "error") :=
  ⟨by norm_num,
   short_reply_counts_received (initState 64) 1 (List.replicate 8 0) [0, 1, 2] 5
     (by norm_num)⟩

/-- C7: the standard deviation is present in the summary — both the console
one (`print_statistics`) and the log-stream one (`_log_statistics`) — if
and only if the RTT sample set has at least 2 members; with fewer it is
omitted (the field is absent), not reported as zero. -/
theorem stddev_reported_iff (st : ClientState) :
    (((print_statistics st).rtt.bind RttStats.stddevSq).isSome
       ↔ 2 ≤ st.rtts.length) ∧
    (((log_statistics st).rtt.bind RttStats.stddevSq).isSome
       ↔ 2 ≤ st.rtts.length) := by
  have key : ((computeRunStats st).rtt.bind RttStats.stddevSq).isSome
      ↔ 2 ≤ st.rtts.length := by
    unfold computeRunStats computeRttStats
    by_cases he : st.rtts.isEmpty
    · have h0 : st.rtts.length = 0 := by
        simpa [List.isEmpty_iff_length_eq_zero] using he
      simp [he, h0]
    · by_cases h1 : 1 < st.rtts.length
      · simp [he, h1]
        omega
      · simp [he, h1]
        omega
  exact ⟨key, key⟩

/-- C5: for every non-empty RTT sample set of size n, the reported p50, p95
and p99 are the elements at indices ⌊0.50·n⌋, ⌊0.95·n⌋ and ⌊0.99·n⌋ of the
ascending-sorted sample set: `sortedRtts` is an ascending-sorted permutation
of the samples, the three indices are in range, and the reported values are
read off at exactly those indices. -/
theorem percentile_selection (rtts : List ℚ) (h : rtts ≠ []) :
    List.Sorted (· ≤ ·) (sortedRtts rtts) ∧
    (sortedRtts rtts).Perm rtts ∧
    (sortedRtts rtts).length = rtts.length ∧
    percentileIndex rtts.length 50 < rtts.length ∧
    percentileIndex rtts.length 95 < rtts.length ∧
    percentileIndex rtts.length 99 < rtts.length ∧
    (computeRttStats rtts).p50
      = (sortedRtts rtts).getD (percentileIndex rtts.length 50) 0 ∧
    (computeRttStats rtts).p95
      = (sortedRtts rtts).getD (percentileIndex rtts.length 95) 0 ∧
    (computeRttStats rtts).p99
      = (sortedRtts rtts).getD (percentileIndex rtts.length 99) 0 := by
  have hn : 0 < rtts.length := List.length_pos.mpr h
  have hlen : (sortedRtts rtts).length = rtts.length := sortedRtts_length rtts
  refine ⟨sortedRtts_sorted rtts, sortedRtts_perm rtts, hlen, ?_, ?_, ?_, ?_, ?_, ?_⟩
  · unfold percentileIndex
    omega
  · unfold percentileIndex
    omega
  · unfold percentileIndex
    omega
  · simp [computeRttStats, hlen]
  · simp [computeRttStats, hlen]
  · simp [computeRttStats, hlen]

/-- Witness for `percentile_selection` on the two-sample set `[2, 1]`. -/
theorem percentile_selection_witness :
    ([(2 : ℚ), 1] ≠ []) ∧
    (List.Sorted (· ≤ ·) (sortedRtts [2, 1]) ∧
     (sortedRtts [2, 1]).Perm [2, 1] ∧
     (sortedRtts [2, 1]).length = ([(2 : ℚ), 1]).length ∧
     percentileIndex ([(2 : ℚ), 1]).length 50 < ([(2 : ℚ), 1]).length ∧
     percentileIndex ([(2 : ℚ), 1]).length 95 < ([(2 : ℚ), 1]).length ∧
     percentileIndex ([(2 : ℚ), 1]).length 99 < ([(2 : ℚ), 1]).length ∧
     (computeRttStats [2, 1]).p50
       = (sortedRtts [2, 1]).getD (percentileIndex ([(2 : ℚ), 1]).length 50) 0 ∧
     (computeRttStats [2, 1]).p95
       = (sortedRtts [2, 1]).getD (percentileIndex ([(2 : ℚ), 1]).length 95) 0 ∧
     (computeRttStats [2, 1]).p99
       = (sortedRtts [2, 1]).getD (percentileIndex ([(2 : ℚ), 1]).length 99) 0) :=
  ⟨by simp, percentile_selection [2, 1] (by simp)⟩

/-- C8: for every non-empty RTT sample set, the reported statistics satisfy
min ≤ mean ≤ max and p50 ≤ p95 ≤ p99. -/
theorem stats_ordering (rtts : List ℚ) (h : rtts ≠ []) :
    (computeRttStats rtts).minV ≤ (computeRttStats rtts).meanV ∧
    (computeRttStats rtts).meanV ≤ (computeRttStats rtts).maxV ∧
    (computeRttStats rtts).p50 ≤ (computeRttStats rtts).p95 ∧
    (computeRttStats rtts).p95 ≤ (computeRttStats rtts).p99 := by
  have hn : 0 < rtts.length := List.length_pos.mpr h
  have hlen : (sortedRtts rtts).length = rtts.length := sortedRtts_length rtts
  have hs := sortedRtts_sorted rtts
  have h95 : percentileIndex (sortedRtts rtts).length 95 < (sortedRtts rtts).length := by
    unfold percentileIndex
    omega
  have h99 : percentileIndex (sortedRtts rtts).length 99 < (sortedRtts rtts).length := by
    unfold percentileIndex
    omega
  have h5095 : percentileIndex (sortedRtts rtts).length 50
      ≤ percentileIndex (sortedRtts rtts).length 95 := by
    unfold percentileIndex
    omega
  have h9599 : percentileIndex (sortedRtts rtts).length 95
      ≤ percentileIndex (sortedRtts rtts).length 99 := by
    unfold percentileIndex
    omega
  refine ⟨?_, ?_, ?_, ?_⟩
  · simpa [computeRttStats] using listMin_le_listMean rtts h
  · simpa [computeRttStats] using listMean_le_listMax rtts h
  · simpa [computeRttStats] using
      sorted_getD_mono (sortedRtts rtts) hs _ _ h5095 h95
  · simpa [computeRttStats] using
      sorted_getD_mono (sortedRtts rtts) hs _ _ h9599 h99

/-- Witness for `stats_ordering` on the two-sample set `[1, 3]`. -/
theorem stats_ordering_witness :
    ([(1 : ℚ), 3] ≠ []) ∧
    ((computeRttStats [1, 3]).minV ≤ (computeRttStats [1, 3]).meanV ∧
     (computeRttStats [1, 3]).meanV ≤ (computeRttStats [1, 3]).maxV ∧
     (computeRttStats [1, 3]).p50 ≤ (computeRttStats [1, 3]).p95 ∧
     (computeRttStats [1, 3]).p95 ≤ (computeRttStats [1, 3]).p99) :=
  ⟨by simp, stats_ordering [1, 3] (by simp)⟩

/-- C1 counterexample: with packet_count = 1 and a run in which the single
`sock.sendto` call raises (e.g. network unreachable), the generic exception
handler logs exactly one row with status "error", but `sent_count` is never
incremented: at run end sent_count = 0 ≠ 1 = packet_count, refuting the
claim that every run ends with sent_count = packet_count. -/
theorem probe_accounting_counterexample :
    (runLoop (fun _ => .sendFail "unreachable") (fun _ => List.replicate 8 0) 1
        (initState 64)).log.map LogRow.status = ["error"] ∧
    (runLoop (fun _ => .sendFail "unreachable") (fun _ => List.replicate 8 0) 1
        (initState 64)).sent_count = 0 ∧
    ¬ (runLoop (fun _ => .sendFail "unreachable") (fun _ => List.replicate 8 0) 1
        (initState 64)).sent_count = 1 := by
  refine ⟨rfl, rfl, ?_⟩
  decide

/-- C1 amended: every run with packet_count = n produces exactly one log
row per sequence number 1..n, in order — no duplicates, no gaps — each with
status "ok", "timeout" or "error"; `sent_count`, however, counts exactly
the sequence numbers whose `sendto` call succeeded, so it equals
packet_count whenever no send attempt itself fails (and only the claim's
unconditional `sent_count = packet_count` had to be weakened). -/
theorem probe_accounting (env : Nat → NetEvent) (ts : Nat → List Nat)
    (count : Nat) (size : Int) :
    (runLoop env ts count (initState size)).log.map LogRow.sequence
      = List.range' 1 count ∧
    (∀ r ∈ (runLoop env ts count (initState size)).log,
       r.status = "ok" ∨ r.status = "timeout" ∨ r.status = "error") ∧
    (runLoop env ts count (initState size)).sent_count
      = (List.range' 1 count).countP (fun s => (env s).sendSucceeds) ∧
    ((∀ s ∈ List.range' 1 count, (env s).sendSucceeds = true) →
       (runLoop env ts count (initState size)).sent_count = count) := by
  have hmap := foldSeqs_log_map env ts (List.range' 1 count) (initState size)
  have hstat := foldSeqs_status env ts (List.range' 1 count) (initState size)
  have hsent := foldSeqs_sent env ts (List.range' 1 count) (initState size)
  refine ⟨?_, ?_, ?_, ?_⟩
  · simpa [runLoop, initState] using hmap
  · intro r hr
    rcases hstat r hr with hmem | hok
    · simp [initState] at hmem
    · exact hok
  · simpa [runLoop, initState] using hsent
  · intro hall
    have : (List.range' 1 count).countP (fun s => (env s).sendSucceeds)
        = (List.range' 1 count).length :=
      List.countP_eq_length.mpr (by simpa using hall)
    have hlen : (List.range' 1 count).length = count := by simp
    calc (runLoop env ts count (initState size)).sent_count
        = (List.range' 1 count).countP (fun s => (env s).sendSucceeds) := by
          simpa [runLoop, initState] using hsent
      _ = count := by rw [this, hlen]

/-- Witness for `probe_accounting`: a two-probe run in which both sends
succeed (one echo received in full, one timeout), discharging the final
implication concretely. -/
theorem probe_accounting_witness :
    (runLoop (fun s => if s = 1 then .reply (List.replicate 64 120) 5 else .timeout)
        (fun _ => List.replicate 8 0) 2 (initState 64)).log.map LogRow.sequence
      = List.range' 1 2 ∧
    (runLoop (fun s => if s = 1 then .reply (List.replicate 64 120) 5 else .timeout)
        (fun _ => List.replicate 8 0) 2 (initState 64)).sent_count = 2 := by
  have h := probe_accounting
    (fun s => if s = 1 then .reply (List.replicate 64 120) 5 else .timeout)
    (fun _ => List.replicate 8 0) 2 64
  exact ⟨h.1, h.2.2.2 (by decide)⟩

/-- C6 counterexample: in a run that completes normally (here with
packet_count = 0), the teardown trace contains both the log-stream
statistics emission and the socket release, but at no pair of positions
does the log-stream emission precede the socket release: the `finally`
block closes the socket BEFORE `_log_statistics` writes the summary to the
log stream, refuting "emits the run statistics to both the console and the
log stream, and only then releases the socket". -/
theorem teardown_order_counterexample :
    (∃ i : Fin (runTrace 64 (fun _ => .timeout) (fun _ => List.replicate 8 0)
          0 none).length,
       (runTrace 64 (fun _ => .timeout) (fun _ => List.replicate 8 0)
          0 none).get i = .statsLog) ∧
    (∃ j : Fin (runTrace 64 (fun _ => .timeout) (fun _ => List.replicate 8 0)
          0 none).length,
       (runTrace 64 (fun _ => .timeout) (fun _ => List.replicate 8 0)
          0 none).get j = .socketClose) ∧
    ¬ ∃ (i j : Fin (runTrace 64 (fun _ => .timeout) (fun _ => List.replicate 8 0)
          0 none).length),
        (runTrace 64 (fun _ => .timeout) (fun _ => List.replicate 8 0)
          0 none).get i = .statsLog ∧
        (runTrace 64 (fun _ => .timeout) (fun _ => List.replicate 8 0)
          0 none).get j = .socketClose ∧ i < j := by
  decide

/-- C6 amended: on every exit path — run to completion or user cancellation
observed before any iteration — `run` ends with the fixed teardown
sequence: console statistics, then socket release, then log-stream
statistics, then log-stream close; everything before it is a per-probe log
row, one per processed sequence number. -/
theorem teardown_order (size : Int) (env : Nat → NetEvent) (ts : Nat → List Nat)
    (count : Nat) (cancel : Option Nat) :
    ∃ pre, runTrace size env ts count cancel
        = pre ++ [.statsConsole, .socketClose, .statsLog, .logClose] ∧
      (∀ e ∈ pre, ∃ s stat, e = .row s stat) ∧
      (foldSeqs env ts (bodySeqs count cancel) (initState size)).log.map
          LogRow.sequence = bodySeqs count cancel := by
  refine ⟨(foldSeqs env ts (bodySeqs count cancel) (initState size)).log.map
    (fun r => TraceEv.row r.sequence r.status), ?_, ?_, ?_⟩
  · rfl
  · intro e he
    obtain ⟨r, -, hre⟩ := List.mem_map.mp he
    exact ⟨r.sequence, r.status, hre.symm⟩
  · simpa [initState] using
      foldSeqs_log_map env ts (bodySeqs count cancel) (initState size)

end UdpEcho
